import Mathlib

/-!
Verification of the core of `simple-vtt`: the rolling audio buffer
(`VoiceModel.process_audio_clip` in `src/simple_vtt/VoiceModel.py`), the
Qt-side locked sample buffer (`SimpleVoiceToTextApplication` in
`src/simple_vtt/qt/SimpleVoiceToTextApplication.py`) and the STFT wrapper
(`VoiceModel.stft`).  Buffers are embedded as `List ℤ`; numpy's `roll`,
slice assignment and column indexing are given their documented semantics.
-/

namespace SimpleVtt

/-- `AUDIO_PROCESSING_WINDOW_SECONDS = 3` (VoiceModel.py line 10). -/
def AUDIO_PROCESSING_WINDOW_SECONDS : ℕ := 3

/-- `AUDIO_PROCESSING_SAMPLE_HZ = 8000` (VoiceModel.py line 11). -/
def AUDIO_PROCESSING_SAMPLE_HZ : ℕ := 8000

/-- The buffer capacity `AUDIO_PROCESSING_SAMPLE_HZ * AUDIO_PROCESSING_WINDOW_SECONDS`
(= 24000), the size allocated at VoiceModel.py line 34. -/
def capacity : ℕ := AUDIO_PROCESSING_SAMPLE_HZ * AUDIO_PROCESSING_WINDOW_SECONDS

/-- A numpy array as passed for the `samples` argument: either one-dimensional
(a flat list of samples) or two-dimensional (a list of rows; row `i`, column `c`
holds channel `c` of frame `i`). -/
inductive NpArray where
  | one (data : List ℤ)
  | two (rows : List (List ℤ))

/-- Python `len(samples)`: the length of the first axis. -/
def npLen : NpArray → ℕ
  | .one d => d.length
  | .two r => r.length

/-- Numpy `samples[:,0]` (VoiceModel.py line 64): column 0 of a two-dimensional
array.  On a one-dimensional array, or a two-dimensional array with no
columns, numpy raises `IndexError`; that is the `none` case. -/
def col0 : NpArray → Option (List ℤ)
  | .one _ => none
  | .two rows => if rows.all (fun r => !r.isEmpty) then some (rows.map List.headI) else none

/-- Numpy `np.roll(buf, n)` for a one-dimensional array (VoiceModel.py line 61):
rotate right by `n` positions, `n` taken modulo the length. -/
def roll (buf : List ℤ) (n : ℕ) : List ℤ :=
  buf.drop (buf.length - n % buf.length) ++ buf.take (buf.length - n % buf.length)

/-- Errors an ingest call can raise.  `unsupportedRate` and
`unsupportedDiscontinuity` are the two `NotImplementedError`s of
VoiceModel.py lines 53-56; `indexError` is numpy's `IndexError` from
`samples[:,0]` on a one-dimensional array; `broadcastError` is numpy's
`ValueError` when `samples[:,0]` is longer than the slice
`audio_buffer[0:len(samples)]` it is assigned into. -/
inductive IngestError where
  | unsupportedRate
  | unsupportedDiscontinuity
  | indexError
  | broadcastError
deriving DecidableEq

/-- The initial buffer `np.zeros(AUDIO_PROCESSING_SAMPLE_HZ * AUDIO_PROCESSING_WINDOW_SECONDS)`
(VoiceModel.py line 34). -/
def audio_buffer0 : List ℤ := List.replicate capacity 0

/-- `VoiceModel.process_audio_clip` (VoiceModel.py lines 36-64), as a function
from the current `audio_buffer` and the arguments to the raised error (if any)
and the `audio_buffer` after the call.  Mirrors the source order: the rate
check, the contiguity check, the `np.roll` assignment (line 61, which always
takes effect), then `samples[:,0]` (which can raise `IndexError`) and the
slice assignment (which can raise a broadcast `ValueError`). -/
def process_audio_clip (buf : List ℤ) (samples : NpArray) (fs : ℚ) (contiguous : Bool) :
    Option IngestError × List ℤ :=
  if fs ≠ (AUDIO_PROCESSING_SAMPLE_HZ : ℚ) then
    (some IngestError.unsupportedRate, buf)
  else if contiguous = false then
    (some IngestError.unsupportedDiscontinuity, buf)
  else
    let rolled := roll buf (npLen samples)
    match col0 samples with
    | none => (some IngestError.indexError, rolled)
    | some col =>
      if npLen samples ≤ buf.length then
        (none, col ++ rolled.drop (npLen samples))
      else
        (some IngestError.broadcastError, rolled)

/-- Sequential ingestion of a list of blocks, each at the configured rate with
`contiguous = True` (the scenario of the spec's testable properties); stops at
the first raised error, like an uncaught Python exception would. -/
def ingestAll (buf : List ℤ) (blocks : List NpArray) : Option IngestError × List ℤ :=
  match blocks with
  | [] => (none, buf)
  | b :: bs =>
    match process_audio_clip buf b (AUDIO_PROCESSING_SAMPLE_HZ : ℚ) true with
    | (none, buf1) => ingestAll buf1 bs
    | (some e, buf1) => (some e, buf1)

/-- The snapshot of the buffer: `_redraw` takes `self.sample_buffer.copy()`
(SimpleVoiceToTextApplication.py line 104); on an immutable list a copy is the
list itself. -/
def snapshot (buf : List ℤ) : List ℤ := buf

/- ### Helper lemmas about `roll` and `process_audio_clip` -/

theorem roll_length (buf : List ℤ) (n : ℕ) : (roll buf n).length = buf.length := by
  simp [roll]

theorem roll_replicate (m n : ℕ) (a : ℤ) :
    roll (List.replicate m a) n = List.replicate m a := by
  have hkm : m - (m - n % m) + (m - n % m) = m := by
    rcases Nat.eq_zero_or_pos m with hm | hm
    · simp [hm]
    · have hk : n % m < m := Nat.mod_lt _ hm
      omega
  simp only [roll, List.length_replicate, List.drop_replicate, List.take_replicate,
    Nat.min_eq_left (Nat.sub_le m (n % m))]
  rw [← List.replicate_add, hkm]

theorem roll_drop (buf : List ℤ) (n : ℕ) (h : n ≤ buf.length) :
    (roll buf n).drop n = buf.take (buf.length - n) := by
  rcases Nat.lt_or_ge n buf.length with hlt | hge
  · have hk : n % buf.length = n := Nat.mod_eq_of_lt hlt
    have hlen : (buf.drop (buf.length - n)).length = n := by
      simp
      omega
    rw [roll, hk, List.drop_left' hlen]
  · have heq : n = buf.length := le_antisymm h hge
    subst heq
    rcases Nat.eq_zero_or_pos buf.length with h0 | h0
    · simp [roll, List.eq_nil_of_length_eq_zero h0]
    · have hk : buf.length % buf.length = 0 := Nat.mod_self _
      simp [roll, hk, List.drop_length]

theorem col0_two (rows : List (List ℤ)) (hwf : rows.all (fun r => !r.isEmpty) = true) :
    col0 (NpArray.two rows) = some (rows.map List.headI) := by
  simp [col0, hwf]

/-- Successful ingest of a well-formed two-dimensional block no longer than the
buffer: the new buffer is the first `buf.length` samples of column 0 of the
block followed by the old contents. -/
theorem process_ok (buf : List ℤ) (rows : List (List ℤ))
    (hwf : rows.all (fun r => !r.isEmpty) = true) (hlen : rows.length ≤ buf.length) :
    process_audio_clip buf (NpArray.two rows) (AUDIO_PROCESSING_SAMPLE_HZ : ℚ) true
      = (none, List.take buf.length (rows.map List.headI ++ buf)) := by
  have hcol := col0_two rows hwf
  have hn : npLen (NpArray.two rows) = rows.length := rfl
  simp only [process_audio_clip, hcol, hn]
  rw [if_neg (by simp), if_neg (by simp), if_pos hlen]
  rw [roll_drop _ _ hlen, List.take_append_eq_append_take]
  rw [List.take_of_length_le (show (List.map List.headI rows).length ≤ buf.length by
    simpa using hlen)]
  simp

theorem process_oversized (buf : List ℤ) (rows : List (List ℤ))
    (hwf : rows.all (fun r => !r.isEmpty) = true) (hlen : buf.length < rows.length) :
    process_audio_clip buf (NpArray.two rows) (AUDIO_PROCESSING_SAMPLE_HZ : ℚ) true
      = (some IngestError.broadcastError, roll buf rows.length) := by
  have hcol := col0_two rows hwf
  have hn : npLen (NpArray.two rows) = rows.length := rfl
  simp [process_audio_clip, hcol, hn, Nat.not_le.mpr hlen]

theorem process_oneDim (buf : List ℤ) (data : List ℤ) :
    process_audio_clip buf (NpArray.one data) (AUDIO_PROCESSING_SAMPLE_HZ : ℚ) true
      = (some IngestError.indexError, roll buf data.length) := by
  simp [process_audio_clip, col0, npLen]

theorem col0_length (samples : NpArray) (col : List ℤ) (h : col0 samples = some col) :
    col.length = npLen samples := by
  cases samples with
  | one d => simp [col0] at h
  | two rows =>
    simp only [col0] at h
    by_cases hwf : (rows.all fun r => !r.isEmpty) = true
    · rw [if_pos hwf, Option.some.injEq] at h
      subst h
      simp [npLen]
    · rw [if_neg hwf] at h
      exact absurd h (by simp)

theorem process_some (buf : List ℤ) (samples : NpArray) (col : List ℤ)
    (hcol : col0 samples = some col) (hlen : npLen samples ≤ buf.length) :
    process_audio_clip buf samples (AUDIO_PROCESSING_SAMPLE_HZ : ℚ) true
      = (none, List.take buf.length (col ++ buf)) := by
  have hcl := col0_length samples col hcol
  simp only [process_audio_clip, hcol]
  rw [if_neg (by simp), if_neg (by simp), if_pos hlen]
  rw [roll_drop _ _ hlen, List.take_append_eq_append_take]
  rw [List.take_of_length_le (show col.length ≤ buf.length by rw [hcl]; exact hlen)]
  rw [hcl]

/-- Column 0 of a successfully ingested block (`(col0 b).getD []` is that
column whenever `col0 b` succeeded). -/
def colOf (b : NpArray) : List ℤ := (col0 b).getD []

theorem take_absorb (c s : List ℤ) (n : ℕ) :
    List.take n (c ++ List.take n s) = List.take n (c ++ s) := by
  rw [List.take_append_eq_append_take, List.take_append_eq_append_take, List.take_take]
  congr 2
  exact Nat.min_eq_left (Nat.sub_le _ _)

/-- Characterization of the buffer after ingesting a sequence of well-formed
two-dimensional blocks, each no longer than the buffer: the result is the
first `buf.length` samples of the blocks' columns 0 laid out newest block
first, followed by the prior contents. -/
theorem ingestAll_eq (blocks : List NpArray) : ∀ buf : List ℤ,
    (∀ b ∈ blocks, (col0 b).isSome = true ∧ npLen b ≤ buf.length) →
    ingestAll buf blocks
      = (none, List.take buf.length ((blocks.reverse.map colOf).flatten ++ buf)) := by
  induction blocks with
  | nil =>
    intro buf h
    simp [ingestAll]
  | cons b bs ih =>
    intro buf h
    obtain ⟨hsome, hlen⟩ := h b (List.mem_cons_self b bs)
    obtain ⟨col, hcol⟩ := Option.isSome_iff_exists.mp hsome
    have hstep := process_some buf b col hcol hlen
    have hlen1 : (List.take buf.length (col ++ buf)).length = buf.length := by
      simp
    have hrest := ih (List.take buf.length (col ++ buf)) (by
      intro b2 hb2
      have h2 := h b2 (List.mem_cons_of_mem b hb2)
      rw [hlen1]
      exact h2)
    simp only [ingestAll, hstep, hrest]
    rw [hlen1]
    congr 1
    rw [List.reverse_cons, List.map_append, List.flatten_append]
    simp only [List.map_cons, List.map_nil, List.flatten_cons, List.flatten_nil,
      List.append_nil]
    have hc : colOf b = col := by simp [colOf, hcol]
    rw [hc, List.append_assoc, take_absorb]

theorem audio_buffer0_length : audio_buffer0.length = capacity := by
  simp [audio_buffer0]

/- ### Claim theorems for the ring buffer -/

/-- C1: the spec claims that after ingesting a sequence of blocks at the
configured rate with `contiguous = true`, the snapshot's last
`min(total, capacity)` entries are the most recently ingested samples
oldest-first.  The code instead places blocks newest-first at the FRONT of
the buffer: ingesting `[[1]]` then `[[2]]` into a fresh buffer yields
`[2, 1, 0, ...]`, so the last two snapshot entries are `[0, 0]`, not the
claimed `[1, 2]`. -/
theorem C1_code_bug_eval :
    snapshot (ingestAll audio_buffer0 [NpArray.two [[1]], NpArray.two [[2]]]).2
        = 2 :: 1 :: List.replicate (capacity - 2) 0 ∧
    (snapshot (ingestAll audio_buffer0 [NpArray.two [[1]], NpArray.two [[2]]]).2).drop
        (capacity - 2) ≠ [1, 2] := by
  have hcond : ∀ b ∈ [NpArray.two [[(1:ℤ)]], NpArray.two [[2]]],
      (col0 b).isSome = true ∧ npLen b ≤ audio_buffer0.length := by
    intro b hb
    rw [audio_buffer0_length]
    simp only [List.mem_cons, List.mem_singleton] at hb
    rcases hb with rfl | rfl | hb
    · exact ⟨by decide, by decide⟩
    · exact ⟨by decide, by decide⟩
    · exact absurd hb (List.not_mem_nil b)
  have h := ingestAll_eq [NpArray.two [[1]], NpArray.two [[2]]] audio_buffer0 hcond
  rw [audio_buffer0_length] at h
  have hflat : ((([NpArray.two [[(1:ℤ)]], NpArray.two [[2]]]).reverse).map colOf).flatten
      = [2, 1] := by
    simp [colOf, col0, List.headI]
  rw [hflat] at h
  have htake : List.take capacity ([2, 1] ++ audio_buffer0)
      = 2 :: 1 :: List.replicate (capacity - 2) 0 := by
    rw [audio_buffer0, List.take_append_eq_append_take, List.take_replicate]
    rw [List.take_of_length_le (show ([(2:ℤ), 1]).length ≤ capacity by decide)]
    rw [show ([(2:ℤ), 1]).length = 2 from rfl, Nat.min_eq_left (Nat.sub_le _ _)]
    rfl
  rw [htake] at h
  have hdrop : (2 :: 1 :: List.replicate (capacity - 2) (0:ℤ)).drop (capacity - 2)
      = [0, 0] := by
    have h2 : (2 :: 1 :: List.replicate (capacity - 2) (0:ℤ))
        = [2, 1] ++ List.replicate (capacity - 2) 0 := rfl
    rw [h2, show capacity - 2 = ([(2:ℤ), 1]).length + (capacity - 4) by decide,
      List.drop_append, List.drop_replicate, Nat.add_sub_cancel]
    decide
  have hfinal : (ingestAll audio_buffer0 [NpArray.two [[1]], NpArray.two [[2]]]).2
      = 2 :: 1 :: List.replicate (capacity - 2) 0 := by rw [h]
  refine ⟨by rw [snapshot, hfinal], ?_⟩
  rw [snapshot, hfinal, hdrop]
  decide

/-- C2: the spec claims that ingesting blocks of total length `L ≤ capacity`
into a fresh buffer leaves the FIRST `capacity − L` entries at zero and the
LAST `L` entries equal to the blocks in order.  The code puts the new
samples at the front instead: ingesting the single block `[[3]]` yields
`[3, 0, ..., 0]`, whose first entry is `3` (not the silence value) and whose
last entry is `0` (not `3`). -/
theorem C2_code_bug_eval :
    snapshot (ingestAll audio_buffer0 [NpArray.two [[3]]]).2
        = 3 :: List.replicate (capacity - 1) 0 ∧
    3 :: List.replicate (capacity - 1) (0:ℤ) ≠ List.replicate (capacity - 1) 0 ++ [3] := by
  have hcond : ∀ b ∈ [NpArray.two [[(3:ℤ)]]],
      (col0 b).isSome = true ∧ npLen b ≤ audio_buffer0.length := by
    intro b hb
    rw [audio_buffer0_length]
    simp only [List.mem_singleton] at hb
    subst hb
    exact ⟨by decide, by decide⟩
  have h := ingestAll_eq [NpArray.two [[3]]] audio_buffer0 hcond
  rw [audio_buffer0_length] at h
  have hflat : ((([NpArray.two [[(3:ℤ)]]]).reverse).map colOf).flatten = [3] := by
    simp [colOf, col0, List.headI]
  rw [hflat] at h
  have htake : List.take capacity ([3] ++ audio_buffer0)
      = 3 :: List.replicate (capacity - 1) 0 := by
    rw [audio_buffer0, List.take_append_eq_append_take, List.take_replicate]
    rw [List.take_of_length_le (show ([(3:ℤ)]).length ≤ capacity by decide)]
    rw [show ([(3:ℤ)]).length = 1 from rfl, Nat.min_eq_left (Nat.sub_le _ _)]
    rfl
  rw [htake] at h
  have hfinal : (ingestAll audio_buffer0 [NpArray.two [[3]]]).2
      = 3 :: List.replicate (capacity - 1) 0 := by rw [h]
  refine ⟨by rw [snapshot, hfinal], ?_⟩
  have hsplit : List.replicate (capacity - 1) (0:ℤ) ++ [3]
      = 0 :: (List.replicate (capacity - 2) 0 ++ [3]) := by
    rw [show capacity - 1 = (capacity - 2) + 1 by decide]
    rw [show (capacity - 2) + 1 = 1 + (capacity - 2) by omega, List.replicate_add]
    simp
  intro hcontra
  rw [hsplit] at hcontra
  simp at hcontra

/-- C3 counterexample: with the declared rate equal to the configured 8000 Hz
and `contiguous = true` the claim says ingest succeeds, but a one-dimensional
block (exactly the "ordered sequence of real samples" of the spec's interface)
raises `IndexError`, and the buffer is changed (rolled), not left intact. -/
theorem C3_counterexample :
    (process_audio_clip [1, 2, 3] (NpArray.one [9, 9])
        (AUDIO_PROCESSING_SAMPLE_HZ : ℚ) true).1 = some IngestError.indexError ∧
    (process_audio_clip [1, 2, 3] (NpArray.one [9, 9])
        (AUDIO_PROCESSING_SAMPLE_HZ : ℚ) true).2 ≠ [1, 2, 3] := by
  have h := process_oneDim [1, 2, 3] [9, 9]
  rw [h]
  constructor
  · rfl
  · decide

/-- C3 (amended): ingest fails with UnsupportedRate iff the declared rate
differs from the configured 8000 Hz (this check runs first, so a
non-contiguous call with a wrong rate also reports UnsupportedRate); at the
matching rate it fails with UnsupportedDiscontinuity iff `contiguous = false`;
when both checks pass it succeeds iff the block is two-dimensional with at
least one channel and no longer than the buffer; and every call rejected by
the rate or contiguity checks leaves the buffer contents unchanged (so the
buffer remains usable). -/
theorem C3_amended_thm :
    ∀ (buf : List ℤ) (samples : NpArray) (fs : ℚ) (contig : Bool),
      ((process_audio_clip buf samples fs contig).1 = some IngestError.unsupportedRate
        ↔ fs ≠ (AUDIO_PROCESSING_SAMPLE_HZ : ℚ)) ∧
      (fs = (AUDIO_PROCESSING_SAMPLE_HZ : ℚ) →
        ((process_audio_clip buf samples fs contig).1 = some IngestError.unsupportedDiscontinuity
          ↔ contig = false)) ∧
      (fs = (AUDIO_PROCESSING_SAMPLE_HZ : ℚ) → contig = true →
        ((process_audio_clip buf samples fs contig).1 = none
          ↔ (col0 samples).isSome = true ∧ npLen samples ≤ buf.length)) ∧
      ((fs ≠ (AUDIO_PROCESSING_SAMPLE_HZ : ℚ) ∨ contig = false) →
        (process_audio_clip buf samples fs contig).2 = buf) := by
  intro buf samples fs contig
  by_cases hfs : fs = (AUDIO_PROCESSING_SAMPLE_HZ : ℚ)
  · cases contig with
    | false => simp [process_audio_clip, hfs]
    | true =>
      rcases hcol : col0 samples with _ | col
      · simp [process_audio_clip, hfs, hcol]
      · by_cases hn : npLen samples ≤ buf.length
        · simp [process_audio_clip, hfs, hcol, hn]
        · simp [process_audio_clip, hfs, hcol, hn]
  · simp [process_audio_clip, hfs]

/-- C3 witness: a call with rate 7000 is rejected with UnsupportedRate and
leaves the buffer `[1, 2]` unchanged. -/
theorem C3_witness :
    (process_audio_clip [1, 2] (NpArray.one [5]) 7000 true).1
        = some IngestError.unsupportedRate ∧
    (process_audio_clip [1, 2] (NpArray.one [5]) 7000 true).2 = [1, 2] := by
  have h := C3_amended_thm [1, 2] (NpArray.one [5]) 7000 true
  exact ⟨h.1.mpr (by norm_num [AUDIO_PROCESSING_SAMPLE_HZ]),
    h.2.2.2 (Or.inl (by norm_num [AUDIO_PROCESSING_SAMPLE_HZ]))⟩

/-- C4 counterexample: the claim says a valid block longer than capacity is
ingested without error (keeping its last `capacity` samples).  In the code the
assignment `audio_buffer[0:len(samples)] = samples[:,0]` cannot broadcast a
column of more than `capacity` samples into the `capacity`-element slice, so
the call raises an error instead of succeeding. -/
theorem C4_counterexample :
    (process_audio_clip audio_buffer0 (NpArray.two (List.replicate (capacity + 1) [1]))
        (AUDIO_PROCESSING_SAMPLE_HZ : ℚ) true).1 = some IngestError.broadcastError := by
  have hwf : (List.replicate (capacity + 1) ([1] : List ℤ)).all
      (fun r => !r.isEmpty) = true := by
    simp [List.all_eq_true, List.mem_replicate]
  have hlt : audio_buffer0.length < (List.replicate (capacity + 1) ([1] : List ℤ)).length := by
    rw [audio_buffer0_length]
    simp
  rw [process_oversized audio_buffer0 (List.replicate (capacity + 1) [1]) hwf hlt]

/-- C4 (amended): for a well-formed two-dimensional block strictly longer than
the buffer the call fails with a numpy broadcast `ValueError`; the buffer is
left rolled by `len(block) mod capacity` (the roll on line 61 has already been
assigned when the assignment on line 64 raises), and no truncation to the last
`capacity` samples takes place. -/
theorem C4_amended_thm :
    ∀ (buf : List ℤ) (rows : List (List ℤ)),
      buf.length = capacity → capacity < rows.length →
      rows.all (fun r => !r.isEmpty) = true →
      process_audio_clip buf (NpArray.two rows) (AUDIO_PROCESSING_SAMPLE_HZ : ℚ) true
        = (some IngestError.broadcastError, roll buf rows.length) :=
  fun buf rows hbuf hlen hwf =>
    process_oversized buf rows hwf (by rw [hbuf]; exact hlen)

/-- C4 witness: ingesting a block of `capacity + 1` rows into the fresh
all-zero buffer raises the broadcast error and leaves the (all-zero) buffer
rolled, i.e. unchanged in value. -/
theorem C4_witness :
    process_audio_clip audio_buffer0 (NpArray.two (List.replicate (capacity + 1) [2]))
        (AUDIO_PROCESSING_SAMPLE_HZ : ℚ) true
      = (some IngestError.broadcastError, audio_buffer0) := by
  have h := C4_amended_thm audio_buffer0 (List.replicate (capacity + 1) [2])
    audio_buffer0_length (by simp) (by simp [List.all_eq_true, List.mem_replicate])
  rw [h, audio_buffer0, roll_replicate]

/-- C5: ingesting a two-dimensional block of exactly `capacity` rows makes the
snapshot equal that block's first channel exactly, in input order, whatever the
buffer held before. -/
theorem C5_exact_block (buf : List ℤ) (rows : List (List ℤ))
    (hbuf : buf.length = capacity) (hrows : rows.length = capacity)
    (hwf : rows.all (fun r => !r.isEmpty) = true) :
    process_audio_clip buf (NpArray.two rows) (AUDIO_PROCESSING_SAMPLE_HZ : ℚ) true
      = (none, snapshot (rows.map List.headI)) := by
  rw [process_ok buf rows hwf (le_of_eq (hrows.trans hbuf.symm))]
  rw [snapshot, List.take_left' (show (rows.map List.headI).length = buf.length by
    simp [hrows, hbuf])]

/-- C5 witness: a constant block of exactly `capacity` mono frames `[5]`
replaces the fresh buffer completely. -/
theorem C5_witness :
    process_audio_clip audio_buffer0 (NpArray.two (List.replicate capacity [5]))
        (AUDIO_PROCESSING_SAMPLE_HZ : ℚ) true = (none, List.replicate capacity 5) := by
  have h := C5_exact_block audio_buffer0 (List.replicate capacity [5])
    audio_buffer0_length (by simp) (by simp [List.all_eq_true, List.mem_replicate])
  rw [h, snapshot, List.map_replicate]
  rfl

/-- C10 (implicit): `process_audio_clip` requires its sample block to be
two-dimensional and keeps only its column 0.  A one-dimensional block raises
`IndexError` even at the configured rate with `contiguous = true` (after the
roll has already happened), and a successful ingest of a two-dimensional block
stores exactly `rows.map List.headI`, i.e. channel 0 of each frame. -/
theorem C10_first_channel :
    (∀ (buf data : List ℤ),
      process_audio_clip buf (NpArray.one data) (AUDIO_PROCESSING_SAMPLE_HZ : ℚ) true
        = (some IngestError.indexError, roll buf data.length)) ∧
    (∀ (buf : List ℤ) (rows : List (List ℤ)),
      rows.all (fun r => !r.isEmpty) = true → rows.length ≤ buf.length →
      (process_audio_clip buf (NpArray.two rows) (AUDIO_PROCESSING_SAMPLE_HZ : ℚ) true).2
        = List.take buf.length (rows.map List.headI ++ buf)) :=
  ⟨process_oneDim, fun buf rows hwf hlen => by rw [process_ok buf rows hwf hlen]⟩

/-- C10 witness: a one-dimensional block of two samples raises `IndexError`
on a 3-sample buffer, and a 2-frame stereo block stores only channel 0. -/
theorem C10_witness :
    process_audio_clip [0, 0, 0] (NpArray.one [4, 4])
        (AUDIO_PROCESSING_SAMPLE_HZ : ℚ) true = (some IngestError.indexError, [0, 0, 0]) ∧
    (process_audio_clip [10, 20, 30] (NpArray.two [[7, 1], [8, 2]])
        (AUDIO_PROCESSING_SAMPLE_HZ : ℚ) true).2 = [7, 8, 10] := by
  constructor
  · have h := C10_first_channel.1 [0, 0, 0] [4, 4]
    rw [h]
    decide
  · have h := C10_first_channel.2 [10, 20, 30] [[7, 1], [8, 2]] (by decide) (by decide)
    rw [h]
    decide

/- ### The Qt application's locked sample buffer (C6) -/

/-- State of `SimpleVoiceToTextApplication`'s shared sample buffer: the
`threading.Lock` `sample_semaphore` (line 51; `locked = true` while held) and
the numpy array `sample_buffer` (line 52). -/
structure AppState where
  locked : Bool
  sample_buffer : List ℤ

/-- `_onSoundSamplesReceived` (SimpleVoiceToTextApplication.py lines 64-91),
entered with the lock free: `acquire()` on line 80, the `np.roll` assignment
on line 85 (always takes effect), then `indata[:,0]` and the slice assignment
on line 88 — either of which can raise — and `release()` on line 91.  There
is no try/finally, so when line 88 raises, the release never runs and the
lock stays held.  Returns the raised error (if any) and the final state. -/
def onSoundSamplesReceived (st : AppState) (indata : NpArray) :
    Option IngestError × AppState :=
  let rolled := roll st.sample_buffer (npLen indata)
  match col0 indata with
  | none => (some IngestError.indexError, ⟨true, rolled⟩)
  | some col =>
    if npLen indata ≤ st.sample_buffer.length then
      (none, ⟨false, col ++ rolled.drop (npLen indata)⟩)
    else
      (some IngestError.broadcastError, ⟨true, rolled⟩)

/-- `_redraw` (lines 93-108): acquire, copy the buffer, release; returns the
copied data and the final state.  No statement between acquire and release
can raise, so the lock is always released here. -/
def app_redraw (st : AppState) : List ℤ × AppState :=
  (st.sample_buffer, ⟨false, st.sample_buffer⟩)

/-- C6 counterexample: the claim says the lock is released on every exit path
including error paths.  With `memory_seconds` small enough that the buffer
(here 441 samples, `mic_fs * memory_seconds` for `memory_seconds = 0.01`) is
shorter than the fixed 3000-frame capture block, line 88 raises a broadcast
error inside the critical section and the callback exits with the lock still
held. -/
theorem onSound_oversized (st : AppState) (rows : List (List ℤ))
    (hwf : rows.all (fun r => !r.isEmpty) = true)
    (hlen : st.sample_buffer.length < rows.length) :
    onSoundSamplesReceived st (NpArray.two rows)
      = (some IngestError.broadcastError, ⟨true, roll st.sample_buffer rows.length⟩) := by
  have hcol := col0_two rows hwf
  have hn : npLen (NpArray.two rows) = rows.length := rfl
  simp only [onSoundSamplesReceived, hcol, hn]
  rw [if_neg (Nat.not_le.mpr hlen)]

theorem C6_counterexample :
    (onSoundSamplesReceived ⟨false, List.replicate 441 0⟩
        (NpArray.two (List.replicate 3000 [7]))).1 = some IngestError.broadcastError ∧
    (onSoundSamplesReceived ⟨false, List.replicate 441 0⟩
        (NpArray.two (List.replicate 3000 [7]))).2.locked = true := by
  have hwf : (List.replicate 3000 ([7] : List ℤ)).all (fun r => !r.isEmpty) = true :=
    List.all_eq_true.mpr (fun r hr => by rw [List.eq_of_mem_replicate hr]; rfl)
  have hlen : (AppState.mk false (List.replicate 441 0)).sample_buffer.length
      < (List.replicate 3000 ([7] : List ℤ)).length := by
    rw [show (AppState.mk false (List.replicate 441 (0:ℤ))).sample_buffer
        = List.replicate 441 0 from rfl, List.length_replicate, List.length_replicate]
    decide
  rw [onSound_oversized ⟨false, List.replicate 441 0⟩ (List.replicate 3000 [7]) hwf hlen]
  exact ⟨rfl, rfl⟩

/-- C6 (amended): the lock is released on every exit path that does not
raise: a callback invocation whose block is two-dimensional with at least one
channel and no longer than the buffer completes without error and ends with
the lock free, and `_redraw` always ends with the lock free.  (An exception
raised between acquire and release — oversized or one-dimensional block —
leaves the lock held, as the counterexample shows.) -/
theorem C6_amended_thm :
    (∀ (st : AppState) (indata : NpArray),
      st.locked = false → (col0 indata).isSome = true →
      npLen indata ≤ st.sample_buffer.length →
      (onSoundSamplesReceived st indata).1 = none ∧
      (onSoundSamplesReceived st indata).2.locked = false) ∧
    (∀ st : AppState, (app_redraw st).2.locked = false) := by
  constructor
  · intro st indata hl hsome hn
    obtain ⟨col, hcol⟩ := Option.isSome_iff_exists.mp hsome
    constructor <;> simp [onSoundSamplesReceived, hcol, hn]
  · intro st
    rfl

/-- C6 witness: a well-formed one-frame block on a 3-sample buffer completes
and leaves the lock free, as does a redraw. -/
theorem C6_witness :
    (onSoundSamplesReceived ⟨false, [0, 0, 0]⟩ (NpArray.two [[1]])).2.locked = false ∧
    (app_redraw ⟨false, [9]⟩).2.locked = false :=
  ⟨(C6_amended_thm.1 ⟨false, [0, 0, 0]⟩ (NpArray.two [[1]]) rfl (by decide) (by decide)).2,
   C6_amended_thm.2 ⟨false, [9]⟩⟩

/- ### The STFT wrapper (C7, C8, C9) -/

/-- `VoiceModel.stft` (VoiceModel.py lines 66-75): reads `self.audio_buffer`
and calls `scipy.signal.stft(self.audio_buffer, fs=AUDIO_PROCESSING_SAMPLE_HZ,
nperseg=AUDIO_PROCESSING_SAMPLE_HZ/20)`.  The scipy routine is an external
deterministic function, abstracted as the parameter `f`; the method passes the
buffer and the two constant arguments and assigns nothing, so it returns the
transform result together with the untouched buffer. -/
def stft {α : Type} (f : List ℤ → ℚ → ℚ → α) (buf : List ℤ) : α × List ℤ :=
  (f buf (AUDIO_PROCESSING_SAMPLE_HZ : ℚ) ((AUDIO_PROCESSING_SAMPLE_HZ : ℚ) / 20), buf)

/-- C7: the transform call is pure — for any transform function, two calls on
equal buffer contents give identical outputs, and the call leaves the model
state (the buffer) unchanged. -/
theorem C7_pure :
    (∀ (α : Type) (f : List ℤ → ℚ → ℚ → α) (b1 b2 : List ℤ),
      b1 = b2 → (stft f b1).1 = (stft f b2).1) ∧
    (∀ (α : Type) (f : List ℤ → ℚ → ℚ → α) (b : List ℤ), (stft f b).2 = b) :=
  ⟨fun _ _ _ _ h => by rw [h], fun _ _ _ => rfl⟩

/-- C7 witness: instantiated at a concrete transform function and buffer. -/
theorem C7_witness :
    (stft (fun w _ _ => w.length) [1, 2]).1 = (stft (fun w _ _ => w.length) [1, 2]).1 ∧
    (stft (fun w _ _ => w.length) [1, 2]).2 = [1, 2] :=
  ⟨C7_pure.1 ℕ (fun w _ _ => w.length) [1, 2] [1, 2] rfl,
   C7_pure.2 ℕ (fun w _ _ => w.length) [1, 2]⟩

/-- The `nperseg` argument the source passes to `scipy.signal.stft`
(`AUDIO_PROCESSING_SAMPLE_HZ/20`, VoiceModel.py line 75 — Python true
division, hence an exact rational). -/
def stft_nperseg : ℚ := (AUDIO_PROCESSING_SAMPLE_HZ : ℚ) / 20

/-- Modelled from the spec: the per-segment analysis length
`segment_length = round(sample_rate / 20)`.  The computation happens inside
`scipy.signal.stft`, which is not part of this repository's source. -/
def segLen (fs : ℕ) : ℕ := (round ((fs : ℚ) / 20)).toNat

/-- Modelled from the spec: one analysis frame of length `L` starting at
offset `start`; positions beyond the end of the window read as zero
(boundary padding). -/
def frame (w : List ℤ) (L start : ℕ) : List ℤ :=
  (List.range L).map (fun i => w.getD (start + i) 0)

/-- Modelled from the spec: the number of analysis frames covering the
window at hop size `hop`. -/
def numFrames (wlen hop : ℕ) : ℕ := wlen / hop + 1

/-- Modelled from the spec: the segmentation performed inside
`scipy.signal.stft` — consecutive analysis frames of length `L`, starting
`hop` samples apart, covering the window. -/
def segments (w : List ℤ) (L hop : ℕ) : List (List ℤ) :=
  (List.range (numFrames w.length hop)).map (fun i => frame w L (i * hop))

theorem segLen_hz : segLen AUDIO_PROCESSING_SAMPLE_HZ = 400 := by
  simp only [segLen, AUDIO_PROCESSING_SAMPLE_HZ]
  rw [show ((8000 : ℕ) : ℚ) / 20 = ((400 : ℤ) : ℚ) by norm_num, round_intCast]
  rfl

/-- C8: every analysis frame produced by the segmentation has length exactly
`segment_length`; for the configured 8000 Hz rate `segment_length` is 400 and
equals the `nperseg` argument the source passes at line 75. -/
theorem C8_segment_length :
    (∀ (w : List ℤ) (L hop : ℕ), ∀ s ∈ segments w L hop, s.length = L) ∧
    segLen AUDIO_PROCESSING_SAMPLE_HZ = 400 ∧
    stft_nperseg = 400 := by
  refine ⟨?_, segLen_hz, ?_⟩
  · intro w L hop s hs
    simp only [segments, List.mem_map] at hs
    obtain ⟨i, _, rfl⟩ := hs
    simp [frame]
  · norm_num [stft_nperseg, AUDIO_PROCESSING_SAMPLE_HZ]

/-- C8 witness: a concrete frame of the segmentation of the window `[5, 6]`
with segment length 2 and hop 1 has length 2. -/
theorem C8_witness :
    [(5 : ℤ), 6] ∈ segments [5, 6] 2 1 ∧ ([(5 : ℤ), 6]).length = 2 := by
  have hmem : [(5 : ℤ), 6] ∈ segments [5, 6] 2 1 := by decide
  exact ⟨hmem, C8_segment_length.1 [5, 6] 2 1 [5, 6] hmem⟩

/-- The transform's only failure mode in the spec. -/
inductive TransformError where
  | insufficientSamples
deriving DecidableEq

/-- Default hop used by the transform (`nperseg - nperseg // 2`). -/
def hopOf (L : ℕ) : ℕ := L - L / 2

/-- Modelled from the spec: the transform with its input validation — the
window must be non-empty and at least `segment_length` samples long, else the
call fails with InsufficientSamples and the window is never padded up to a
segment; a valid window is segmented, with no other error condition.  The
validation happens inside `scipy.signal.stft`, not in this repository's
source. -/
def transform (w : List ℤ) (fs : ℕ) : Except TransformError (List (List ℤ)) :=
  if w.isEmpty ∨ w.length < segLen fs then
    Except.error TransformError.insufficientSamples
  else
    Except.ok (segments w (segLen fs) (hopOf (segLen fs)))

/-- C9: for a positive sample rate the transform fails with
InsufficientSamples exactly when the window is empty or shorter than
`segment_length`, and succeeds otherwise (no other error condition); and
every transform call the repository actually makes — on the audio buffer,
whose length is always `capacity` = 24000 ≥ 400 — succeeds. -/
theorem C9_validation :
    (∀ (w : List ℤ) (fs : ℕ), 0 < fs →
      ((transform w fs = Except.error TransformError.insufficientSamples)
        ↔ (w = [] ∨ w.length < segLen fs)) ∧
      ((transform w fs).toOption.isSome = true ↔ ¬(w = [] ∨ w.length < segLen fs))) ∧
    (∀ b : List ℤ, b.length = capacity →
      (transform b AUDIO_PROCESSING_SAMPLE_HZ).toOption.isSome = true) := by
  have hiff : ∀ (w : List ℤ) (fs : ℕ),
      (w.isEmpty = true ∨ w.length < segLen fs) ↔ (w = [] ∨ w.length < segLen fs) := by
    intro w fs
    rw [List.isEmpty_iff]
  constructor
  · intro w fs _
    by_cases hcond : w = [] ∨ w.length < segLen fs
    · rw [transform, if_pos ((hiff w fs).mpr hcond)]
      simp [hcond, Except.toOption]
    · rw [transform, if_neg (fun hc => hcond ((hiff w fs).mp hc))]
      simp [hcond, Except.toOption]
  · intro b hb
    have hne : ¬(b.isEmpty = true ∨ b.length < segLen AUDIO_PROCESSING_SAMPLE_HZ) := by
      rintro (h1 | h2)
      · rw [List.isEmpty_iff] at h1
        rw [h1] at hb
        exact absurd hb.symm (by decide)
      · rw [hb, segLen_hz] at h2
        exact absurd h2 (by decide)
    rw [transform, if_neg hne]
    rfl

/-- C9 witness: a 400-sample window at 8000 Hz is not rejected, nor is the
repository's own 24000-sample buffer. -/
theorem C9_witness :
    (transform (List.replicate 400 (0 : ℤ)) AUDIO_PROCESSING_SAMPLE_HZ).toOption.isSome
        = true ∧
    (transform audio_buffer0 AUDIO_PROCESSING_SAMPLE_HZ).toOption.isSome = true := by
  constructor
  · apply (C9_validation.1 (List.replicate 400 0) AUDIO_PROCESSING_SAMPLE_HZ
      (by decide)).2.mpr
    rintro (h1 | h2)
    · have h3 := congrArg List.length h1
      rw [List.length_replicate] at h3
      exact absurd h3 (by decide)
    · rw [segLen_hz, List.length_replicate] at h2
      exact absurd h2 (by decide)
  · exact C9_validation.2 audio_buffer0 audio_buffer0_length

end SimpleVtt
